import Mathlib

/-!
# necsbplay: a shallow embedding of `necsbplay.c`

The program plays a WAV file on `/dev/sound`: it parses two options, opens
the device, forces a playback format, skips 44 bytes of the input file and
copies the rest to the device in blocks of at most 32768 bytes.

The embedding keeps the source's names. The C library and the kernel are the
environment of the program: `getopt`, `atoi`, `open`, `ioctl` and the file
system answer through the record `Env`; the standard stream functions
(`fopen`, `fseek`, `fread`, `feof`, `fclose`) are modelled on a byte list with
a position and an end-of-file flag. Every call that the program makes to the
outside is recorded, in order, as an `Event`.
-/

namespace Necsbplay

/-! ## Data model -/

/-- The `BUFFER_SIZE` of line 28: the capacity of the global array `buf`. -/
def BUFFER_SIZE : Nat := 32768

/-- The `AUDIO_ENCODING_SLINEAR` of `<sys/audioio.h>`: the header is not part of
the repository, so the number is the one of the OpenBSD header; no result below
depends on it. -/
def AUDIO_ENCODING_SLINEAR : Int := 6

/-- The members of `struct audio_prinfo` that the program names (lines 98-103 and
183-190). The header `<sys/audioio.h>` is not part of the repository: the
members are kept as integers (the product of two of them, at lines 113 and
146, is taken in 32 bits, see `bytes_per_sample`), and `others` stands for the
members that the program never names. -/
structure audio_prinfo where
  sample_rate : Int
  channels : Int
  precision : Int
  bps : Int
  msb : Int
  encoding : Int
  buffer_size : Int
  block_size : Int
  others : List Int
deriving DecidableEq, Repr

/-- The `struct audio_info` of `<sys/audioio.h>`, with the members that the
program names (lines 98-103 and 183-193); `others` stands for the rest (the
record side, the monitor gain, the mode). -/
structure audio_info where
  play : audio_prinfo
  blocksize : Int
  hiwat : Int
  lowat : Int
  others : List Int
deriving DecidableEq, Repr

/-- A standard stream on a file: the bytes of the file, the position of the
next read, the end-of-file indicator, and whether the stream is still open
(`fclose` ends the life of the stream but cannot change a pointer to it). -/
structure FILE where
  data : List Nat
  pos : Nat
  eof : Bool
  is_open : Bool
deriving DecidableEq, Repr

/-- A file of the file system: its bytes, and whether it can be positioned
(`fseek` fails on a pipe or a terminal). -/
structure FileNode where
  data : List Nat
  seekable : Bool
deriving DecidableEq, Repr

/-- The global variables of lines 32-34. `wav_fp = none` is the null pointer. -/
structure Globals where
  debug : Int
  rate : Int
  wav_fp : Option FILE
deriving DecidableEq, Repr

/-- The initial values of the global variables (lines 32-34). -/
def Globals.init : Globals := ⟨0, 11025, none⟩

/-- What the program does to the outside, in order. -/
inductive Event where
  /-- The four lines printed by `usage` (lines 201-204). -/
  | usage
  /-- A `perror` call with its argument. -/
  | perror (s : String)
  /-- The dump printed by `print_audio_info` (lines 182-193). -/
  | print_audio_info (ai : audio_info)
  /-- The call `open("/dev/sound", O_RDWR, 0666)` of line 80. -/
  | open_device
  /-- The call `ioctl(fd, AUDIO_GETINFO, &ai)` of line 90. -/
  | ioctl_getinfo
  /-- The call `ioctl(fd, AUDIO_SETINFO, &ai)` of line 105 with the record passed. -/
  | ioctl_setinfo (ai : audio_info)
  /-- The line printed at line 118. -/
  | printf_open (name : String)
  /-- The call `fopen(wav_file, "rb")` of line 161. -/
  | fopen (name : String)
  /-- The call `fseek(wav_fp, 44, SEEK_SET)` of line 165. -/
  | fseek (offset : Nat)
  /-- The call to `fread` of line 152: the position of the stream before the
  call, the byte count asked for, the byte count obtained, and the end-of-file
  indicator after the call. -/
  | fread (pos : Nat) (asked : Nat) (got : Nat) (eof : Bool)
  /-- The line printed at line 153, with the sample count. -/
  | printf_read (nsamples : Nat)
  /-- The call `write(fd, buf, n)` of line 124 with the bytes offered. -/
  | write (bytes : List Nat)
  /-- A call to `fclose`. -/
  | fclose
  /-- The call `close(fd)` of line 131. -/
  | close
deriving DecidableEq, Repr

/-- How a run ends: `exit`/`return` with a status, or a fault (a division by
zero, a read through a pointer that is null or stale, a store beyond the
buffer). `running` is not an end: the copy loop has not ended within the number
of rounds that the run was given, and the events are those up to that point. -/
inductive Status where
  | exited (code : Int)
  | fault
  | running
deriving DecidableEq, Repr

/-- The environment of a run.
* `getopt`: the values that the successive calls `getopt(argc, argv, "dr:")`
  return before the call that returns -1, each with the `optarg` it sets;
* `operands`: the arguments left from `optind` on when `getopt` returns -1;
* `atoi`: the C library's `atoi`;
* `open_ok`: whether `open("/dev/sound", ...)` succeeds;
* `initinfo`: the record that `AUDIO_INITINFO` builds;
* `getinfo`, `setinfo`: the two `ioctl` requests, `none` for the result -1,
  otherwise the record as the kernel leaves it in the caller's memory;
* `fs`: the file system, `none` where `fopen` fails. -/
structure Env where
  getopt : List (Char × String)
  operands : List String
  atoi : String → Int
  open_ok : Bool
  initinfo : audio_info
  getinfo : audio_info → Option audio_info
  setinfo : audio_info → Option audio_info
  fs : String → Option FileNode

/-! ## Machine integers -/

/-- The value of an `int` expression whose mathematical value is `x`
(two's complement, 32 bits). -/
def wrap_int (x : Int) : Int := (x + 2147483648) % 4294967296 - 2147483648

/-- The conversion of an `int` to `size_t` (32 bits, the width of the ILP32
machine the program was written for). -/
def to_size_t (x : Int) : Nat := (x % 4294967296).toNat

/-! ## The standard stream functions -/

/-- The call `fread(p, 1, n, fp)` on an open stream without read errors: the
bytes obtained and the stream after the call. With `n = 0` the stream is left
as it is; otherwise the stream yields the bytes from its position on, at most
`n`, and the end-of-file indicator is set when fewer than `n` were left. -/
def fread (n : Nat) (fp : FILE) : List Nat × FILE :=
  if n = 0 then ([], fp)
  else
    let got := (fp.data.drop fp.pos).take n
    (got, { fp with pos := fp.pos + got.length, eof := fp.eof || decide (got.length < n) })

/-- The call `fclose(fp)`: the stream is closed; the caller's pointer is not
changed. -/
def fclose (fp : FILE) : FILE := { fp with is_open := false }

/-! ## The functions of the program -/

/-- The expression `channels * precision / 8` of lines 113 and 146. The two
members are `u_int`: the product is taken modulo 2^32 before the division, and
the quotient, below 2^29, is the value of the `int` variable `bps`. -/
def bytes_per_sample (ai : audio_info) : Int :=
  Int.tdiv ((ai.play.channels * ai.play.precision) % 4294967296) 8

/-- Lines 149-150: the clip of `max_samples`. -/
def clip_samples (max_samples bps : Int) : Int :=
  if max_samples > Int.tdiv 32768 bps then Int.tdiv 32768 bps else max_samples

/-- The third argument of the `fread` call of line 152: `max_samples * bps`
after the clip, of type `int`, converted to `size_t`. -/
def fread_request (max_samples bps : Int) : Nat :=
  to_size_t (wrap_int (clip_samples max_samples bps * bps))

/-- The function `read_wav_data` (lines 136-156) on the buffer `p` and the
global `wav_fp`: the value returned, the buffer and `wav_fp` after the call,
and the events. `none` is a fault: the division by `bps = 0`, a read through a
null or closed stream, or more bytes stored than `p` holds. -/
def read_wav_data (p : List Nat) (max_samples : Int) (ai : audio_info)
    (wav_fp : Option FILE) : Option (Int × List Nat × Option FILE × List Event) :=
  let bps := bytes_per_sample ai
  if bps = 0 then none
  else
    match wav_fp with
    | none => none
    | some fp =>
      if fp.is_open = false then none
      else
        let asked := fread_request max_samples bps
        let r := fread asked fp
        let nbytes := r.1.length
        if p.length < nbytes then none
        else
          let n := nbytes / to_size_t bps
          some (wrap_int n, r.1 ++ p.drop nbytes, some r.2,
            [Event.fread fp.pos asked nbytes r.2.eof, Event.printf_read n])

/-- The function `wav_open` (lines 158-170): the value returned, the globals
after the call, and the events. -/
def wav_open (env : Env) (wav_file : String) (g : Globals) : Int × Globals × List Event :=
  match env.fs wav_file with
  | none => (1, { g with wav_fp := none }, [Event.fopen wav_file])
  | some node =>
    let fp : FILE := ⟨node.data, 0, false, true⟩
    if node.seekable then
      (0, { g with wav_fp := some { fp with pos := 44, eof := false } },
        [Event.fopen wav_file, Event.fseek 44])
    else
      (1, { g with wav_fp := some (fclose fp) },
        [Event.fopen wav_file, Event.fseek 44, Event.fclose])

/-- The function `wav_close` (lines 172-177). A null or closed `wav_fp` is a
fault (`none`). -/
def wav_close (g : Globals) : Option (Globals × List Event) :=
  match g.wav_fp with
  | none => none
  | some fp => if fp.is_open then some ({ g with wav_fp := none }, [Event.fclose]) else none

/-- The option loop of lines 56-68 over the values that `getopt` returns:
the globals when `getopt` returns -1, or `none` when `usage` is called (it
does not return: line 205). -/
def parse_options (atoi : String → Int) : List (Char × String) → Globals → Option Globals
  | [], g => some g
  | (ch, optarg) :: rest, g =>
    if ch = 'd' then parse_options atoi rest { g with debug := 1 }
    else if ch = 'r' then parse_options atoi rest { g with rate := atoi optarg }
    else none

/-- Lines 98-103: the playback members that `main` overwrites. -/
def configure (rate : Int) (ai : audio_info) : audio_info :=
  { ai with play := { ai.play with
      sample_rate := rate
      encoding := AUDIO_ENCODING_SLINEAR
      channels := 2
      precision := 16
      bps := 2
      msb := 1 } }

/-- How the copy loop ends; `running` when it has not ended within the number
of rounds given. -/
inductive LoopEnd where
  | at_eof
  | fault
  | running
deriving DecidableEq, Repr

/-- The loop of lines 122-127, followed for at most `fuel` rounds: how it ends,
the buffer and `wav_fp` at that point, and the events. -/
def copy_loop (ai : audio_info) (bps : Int) :
    Nat → List Nat → Option FILE → LoopEnd × List Nat × Option FILE × List Event
  | 0, buf, wav_fp => (LoopEnd.running, buf, wav_fp, [])
  | fuel + 1, buf, wav_fp =>
    match read_wav_data buf 8192 ai wav_fp with
    | none => (LoopEnd.fault, buf, wav_fp, [])
    | some (nsamples, buf1, fp1, ev) =>
      let w := Event.write (buf1.take (to_size_t (wrap_int (nsamples * bps))))
      match fp1 with
      | none => (LoopEnd.fault, buf1, fp1, ev ++ [w])
      | some f =>
        if f.eof then (LoopEnd.at_eof, buf1, fp1, ev ++ [w])
        else
          let r := copy_loop ai bps fuel buf1 fp1
          (r.1, r.2.1, r.2.2.1, ev ++ [w] ++ r.2.2.2)

/-- The dump of line 95 or 110, printed when `debug` is not zero. -/
def debug_dump (debug : Int) (ai : audio_info) : List Event :=
  if debug ≠ 0 then [Event.print_audio_info ai] else []

/-- The function `main` (lines 43-134), with the copy loop followed for at most
`fuel` rounds: the status and the events of the run. -/
def main (fuel : Nat) (env : Env) : Status × List Event :=
  match parse_options env.atoi env.getopt Globals.init with
  | none => (Status.exited 1, [Event.usage])
  | some g =>
    match env.operands with
    | [wav_file] =>
      if env.open_ok = false then
        (Status.exited 1, [Event.open_device, Event.perror "open"])
      else
        match env.getinfo env.initinfo with
        | none =>
          (Status.exited 1,
            [Event.open_device, Event.ioctl_getinfo, Event.perror "ioctl AUDIO_GETINFO"])
        | some ai0 =>
          let ev1 := [Event.open_device, Event.ioctl_getinfo] ++ debug_dump g.debug ai0
          let ai1 := configure g.rate ai0
          match env.setinfo ai1 with
          | none =>
            (Status.exited 1,
              ev1 ++ [Event.ioctl_setinfo ai1, Event.perror "ioctl AUDIO_SETINFO"])
          | some ai =>
            let ev2 := ev1 ++ [Event.ioctl_setinfo ai1] ++ debug_dump g.debug ai
            let bps := bytes_per_sample ai
            let ev3 := ev2 ++ [Event.printf_open wav_file]
            let o := wav_open env wav_file g
            if o.1 ≠ 0 then (Status.exited 1, ev3 ++ o.2.2)
            else
              match copy_loop ai bps fuel (List.replicate BUFFER_SIZE 0) o.2.1.wav_fp with
              | (LoopEnd.running, _, _, evs) => (Status.running, ev3 ++ o.2.2 ++ evs)
              | (LoopEnd.fault, _, _, evs) => (Status.fault, ev3 ++ o.2.2 ++ evs)
              | (LoopEnd.at_eof, _, fp, evs) =>
                match wav_close { o.2.1 with wav_fp := fp } with
                | none => (Status.fault, ev3 ++ o.2.2 ++ evs)
                | some c =>
                  (Status.exited 0, ev3 ++ o.2.2 ++ evs ++ c.2 ++ [Event.close])
    | _ => (Status.exited 1, [Event.usage])

/-! ## Observations on a run -/

/-- The byte blocks offered to `write`, in order. -/
def writes : List Event → List (List Nat)
  | [] => []
  | Event.write b :: es => b :: writes es
  | _ :: es => writes es

/-- The sample counts printed by `read_wav_data`, in order: the values the
calls return. -/
def sample_counts : List Event → List Nat
  | [] => []
  | Event.printf_read n :: es => n :: sample_counts es
  | _ :: es => sample_counts es

/-- The `fread` calls of a run, in order: position, count asked, count
obtained, end-of-file indicator after the call. -/
def freads : List Event → List (Nat × Nat × Nat × Bool)
  | [] => []
  | Event.fread p a k e :: es => (p, a, k, e) :: freads es
  | _ :: es => freads es

/-- The records passed to the set-parameters request. -/
def setinfo_records : List Event → List audio_info
  | [] => []
  | Event.ioctl_setinfo ai :: es => ai :: setinfo_records es
  | _ :: es => setinfo_records es

/-- The invariant of the WAV file handle: null, or an open stream at or past
byte 44. -/
def wav_fp_inv (wav_fp : Option FILE) : Bool :=
  match wav_fp with
  | none => true
  | some fp => fp.is_open && decide (44 ≤ fp.pos)

/-! ## Definitions used in the statements and proofs -/

/-- The sample count of one full block: `min 8192 (32768 / b)`. -/
def block_samples (b : Nat) : Nat := min 8192 (32768 / b)

/-- The bytes that one call of the copy loop's `fread` obtains at position
`pos` when one sample has `b` bytes. -/
def block_at (data : List Nat) (b pos : Nat) : List Nat :=
  (data.drop pos).take (block_samples b * b)

/-- The events of one round of the copy loop at position `pos`: the read,
the line printed, and the write of the whole samples obtained. -/
def round_events (data : List Nat) (b pos : Nat) : List Event :=
  [Event.fread pos (block_samples b * b) (block_at data b pos).length
      (decide ((block_at data b pos).length < block_samples b * b)),
    Event.printf_read ((block_at data b pos).length / b),
    Event.write ((block_at data b pos).take ((block_at data b pos).length / b * b))]

/-- The buffer after one round of the copy loop at position `pos`. -/
def round_buf (data : List Nat) (b pos : Nat) (p : List Nat) : List Nat :=
  block_at data b pos ++ p.drop (block_at data b pos).length

/-- The events of the copy loop from position `pos` when `k` full blocks are
left before the last, short, round. -/
def loop_events (data : List Nat) (b : Nat) : Nat → Nat → List Event
  | 0, pos => round_events data b pos
  | k + 1, pos => round_events data b pos ++ loop_events data b k (pos + block_samples b * b)

/-- The events of `main` from the device open to the line that names the
input file (lines 80-118), when every step succeeds. -/
def setup_events (g : Globals) (ai0 ai : audio_info) (wav_file : String) : List Event :=
  [Event.open_device, Event.ioctl_getinfo] ++ debug_dump g.debug ai0
    ++ [Event.ioctl_setinfo (configure g.rate ai0)] ++ debug_dump g.debug ai
    ++ [Event.printf_open wav_file]

/-- The rate given on the command line: the value of the last `-r` option,
11025 when there is none. -/
def rate_given (atoi : String → Int) (opts : List (Char × String)) : Int :=
  match (opts.filter (fun o => o.1 = 'r')).getLast? with
  | some o => atoi o.2
  | none => 11025

/-! ## A concrete environment -/

/-- A device record as a query may return it. -/
def demo_info : audio_info := ⟨⟨8000, 1, 8, 1, 0, 0, 65536, 2048, [0, 0]⟩, 2048, 30, 20, [3]⟩

/-- A stand-in for `atoi` on strings of decimal digits. -/
def demo_atoi (s : String) : Int :=
  s.data.foldl (fun acc c => acc * 10 + ((c.toNat : Int) - 48)) 0

/-- An environment in which the device opens, both requests succeed and leave
the record as passed, and every file name opens the file `node` (or fails to
open when there is none). -/
def demo_env (opts : List (Char × String)) (ops : List String) (node : Option FileNode) : Env where
  getopt := opts
  operands := ops
  atoi := demo_atoi
  open_ok := true
  initinfo := ⟨⟨-1, -1, -1, -1, -1, -1, -1, -1, []⟩, -1, -1, -1, []⟩
  getinfo := fun _ => some demo_info
  setinfo := fun ai => some ai
  fs := fun _ => node

/-- A file of 51 bytes: a header of 44 bytes, one sample of 4 bytes, and 3 bytes more. -/
def demo_data : List Nat := List.replicate 44 0 ++ [1, 2, 3, 4, 5, 6, 7]

/-! ## Machine integers: the values that occur in the copy loop -/

theorem wrap_int_of_small (x : Int) (h0 : -2147483648 ≤ x) (h1 : x < 2147483648) :
    wrap_int x = x := by
  unfold wrap_int; omega

theorem to_size_t_natCast (n : Nat) (h : n < 4294967296) : to_size_t (n : Int) = n := by
  unfold to_size_t; omega

theorem tdiv_natCast (b : Nat) : Int.tdiv 32768 (b : Int) = ((32768 / b : Nat) : Int) := by
  exact (Int.ofNat_tdiv 32768 b).symm

theorem block_samples_pos (b : Nat) (h1 : 1 ≤ b) (h2 : b ≤ 32768) : 1 ≤ block_samples b := by
  unfold block_samples
  have : 1 ≤ 32768 / b := (Nat.one_le_div_iff (by omega)).mpr h2
  omega

theorem block_samples_mul_le (b : Nat) : block_samples b * b ≤ 32768 := by
  unfold block_samples
  calc min 8192 (32768 / b) * b ≤ (32768 / b) * b := Nat.mul_le_mul_right _ (Nat.min_le_right _ _)
    _ ≤ 32768 := Nat.div_mul_le_self _ _

theorem clip_samples_natCast (m b : Nat) :
    clip_samples (m : Int) (b : Int) = ((min m (32768 / b) : Nat) : Int) := by
  unfold clip_samples
  rw [tdiv_natCast]
  split <;> omega

theorem fread_request_block (b : Nat) :
    fread_request 8192 (b : Int) = block_samples b * b := by
  unfold fread_request
  have h := clip_samples_natCast 8192 b
  simp only [Nat.cast_ofNat] at h
  rw [h]
  have hle := block_samples_mul_le b
  have hc : (((min 8192 (32768 / b) : Nat) : Int) * (b : Int)) = ((block_samples b * b : Nat) : Int) := by
    unfold block_samples; push_cast; rfl
  rw [hc, wrap_int_of_small _ (by omega) (by omega), to_size_t_natCast _ (by omega)]

/-! ## One call of `read_wav_data` and one round of the copy loop -/

theorem block_at_length (data : List Nat) (b pos : Nat) :
    (block_at data b pos).length = min (block_samples b * b) (data.length - pos) := by
  simp [block_at, List.length_take, List.length_drop]

theorem read_wav_data_block (ai : audio_info) (b : Nat) (hb : bytes_per_sample ai = (b : Int))
    (h1 : 1 ≤ b) (h2 : b ≤ 32768) (p : List Nat) (hp : p.length = 32768)
    (data : List Nat) (pos : Nat) :
    read_wav_data p 8192 ai (some ⟨data, pos, false, true⟩) =
      some ((((block_at data b pos).length / b : Nat) : Int),
        block_at data b pos ++ p.drop (block_at data b pos).length,
        some ⟨data, pos + (block_at data b pos).length,
          decide ((block_at data b pos).length < block_samples b * b), true⟩,
        [Event.fread pos (block_samples b * b) (block_at data b pos).length
            (decide ((block_at data b pos).length < block_samples b * b)),
          Event.printf_read ((block_at data b pos).length / b)]) := by
  have hR := block_samples_mul_le b
  have hc := block_samples_pos b h1 h2
  have hR0 : block_samples b * b ≠ 0 := Nat.mul_ne_zero (by omega) (by omega)
  have hlen := block_at_length data b pos
  have hb0 : (b : Int) ≠ 0 := by omega
  have hdiv : (block_at data b pos).length / b < 2147483648 :=
    lt_of_le_of_lt (Nat.div_le_self _ _) (by omega)
  unfold read_wav_data
  simp only [hb, hb0, if_false, fread_request_block, fread, hR0, Bool.false_or]
  have hsz : to_size_t (b : Int) = b := to_size_t_natCast b (by omega)
  have hfit : ¬ p.length < (block_at data b pos).length := by omega
  simp only [block_at] at hfit hdiv ⊢
  rw [if_neg (by simp), if_neg hfit, hsz,
    wrap_int_of_small _ (le_trans (by decide) (Int.ofNat_nonneg _)) (by exact_mod_cast hdiv)]

theorem round_buf_length (data : List Nat) (b pos : Nat) (p : List Nat)
    (hp : p.length = 32768) : (round_buf data b pos p).length = 32768 := by
  have hR := block_samples_mul_le b
  have hlen := block_at_length data b pos
  simp only [round_buf, List.length_append, List.length_drop]
  omega

theorem copy_loop_round (ai : audio_info) (b : Nat) (hb : bytes_per_sample ai = (b : Int))
    (h1 : 1 ≤ b) (h2 : b ≤ 32768) (p : List Nat) (hp : p.length = 32768)
    (data : List Nat) (pos fuel : Nat) :
    copy_loop ai (b : Int) (fuel + 1) p (some ⟨data, pos, false, true⟩) =
      if (block_at data b pos).length < block_samples b * b then
        (LoopEnd.at_eof, round_buf data b pos p,
          some ⟨data, pos + (block_at data b pos).length, true, true⟩, round_events data b pos)
      else
        ((copy_loop ai (b : Int) fuel (round_buf data b pos p)
            (some ⟨data, pos + (block_at data b pos).length, false, true⟩)).1,
          (copy_loop ai (b : Int) fuel (round_buf data b pos p)
            (some ⟨data, pos + (block_at data b pos).length, false, true⟩)).2.1,
          (copy_loop ai (b : Int) fuel (round_buf data b pos p)
            (some ⟨data, pos + (block_at data b pos).length, false, true⟩)).2.2.1,
          round_events data b pos ++
            (copy_loop ai (b : Int) fuel (round_buf data b pos p)
              (some ⟨data, pos + (block_at data b pos).length, false, true⟩)).2.2.2) := by
  have hR := block_samples_mul_le b
  have hlen := block_at_length data b pos
  have hdm : (block_at data b pos).length / b * b ≤ (block_at data b pos).length :=
    Nat.div_mul_le_self _ _
  have hw : to_size_t (wrap_int ((((block_at data b pos).length / b : Nat) : Int) * (b : Int)))
      = (block_at data b pos).length / b * b := by
    have hc : (((block_at data b pos).length / b : Nat) : Int) * (b : Int)
        = (((block_at data b pos).length / b * b : Nat) : Int) := by push_cast; rfl
    rw [hc, wrap_int_of_small _ (by omega) (by omega), to_size_t_natCast _ (by omega)]
  rw [copy_loop, read_wav_data_block ai b hb h1 h2 p hp data pos]
  simp only [hw, List.take_append_of_le_length hdm]
  by_cases hlt : (block_at data b pos).length < block_samples b * b
  · simp [hlt, round_buf, round_events]
  · simp [hlt, round_buf, round_events]

/-! ## The whole copy loop -/

theorem copy_loop_run (ai : audio_info) (b : Nat) (hb : bytes_per_sample ai = (b : Int))
    (h1 : 1 ≤ b) (h2 : b ≤ 32768) (data : List Nat) :
    ∀ (k fuel pos : Nat) (p : List Nat), p.length = 32768 →
      (data.length - pos) / (block_samples b * b) = k → k < fuel →
      ∃ p1 : List Nat, copy_loop ai (b : Int) fuel p (some ⟨data, pos, false, true⟩) =
        (LoopEnd.at_eof, p1, some ⟨data, pos + (data.length - pos), true, true⟩,
          loop_events data b k pos) := by
  have hc := block_samples_pos b h1 h2
  have hR : 0 < block_samples b * b := Nat.mul_pos (by omega) (by omega)
  intro k
  induction k with
  | zero =>
    intro fuel pos p hp hk hf
    obtain ⟨f, rfl⟩ : ∃ f, fuel = f + 1 := ⟨fuel - 1, by omega⟩
    have hlt : data.length - pos < block_samples b * b := by
      have := (Nat.div_lt_iff_lt_mul hR).mp (show (data.length - pos) / (block_samples b * b) < 1 by omega)
      omega
    have hlen := block_at_length data b pos
    have hl : (block_at data b pos).length = data.length - pos := by omega
    refine ⟨round_buf data b pos p, ?_⟩
    rw [copy_loop_round ai b hb h1 h2 p hp data pos f, if_pos (by omega), hl]
    rfl
  | succ k ih =>
    intro fuel pos p hp hk hf
    obtain ⟨f, rfl⟩ : ∃ f, fuel = f + 1 := ⟨fuel - 1, by omega⟩
    have hge : block_samples b * b ≤ data.length - pos := by
      have := (Nat.le_div_iff_mul_le hR).mp (show 1 ≤ (data.length - pos) / (block_samples b * b) by omega)
      omega
    have hlen := block_at_length data b pos
    have hl : (block_at data b pos).length = block_samples b * b := by omega
    have hk2 : (data.length - (pos + block_samples b * b)) / (block_samples b * b) = k := by
      have := Nat.div_eq_sub_div hR hge
      have e : data.length - (pos + block_samples b * b) = data.length - pos - block_samples b * b := by
        omega
      rw [e]; omega
    obtain ⟨p1, hp1⟩ := ih f (pos + block_samples b * b) (round_buf data b pos p)
      (round_buf_length data b pos p hp) hk2 (by omega)
    refine ⟨p1, ?_⟩
    rw [copy_loop_round ai b hb h1 h2 p hp data pos f, if_neg (by omega), hl, hp1]
    have e2 : pos + block_samples b * b + (data.length - (pos + block_samples b * b))
        = pos + (data.length - pos) := by omega
    simp only [e2, loop_events]

/-! ## What the events of the copy loop say -/

theorem writes_append (xs ys : List Event) : writes (xs ++ ys) = writes xs ++ writes ys := by
  induction xs with
  | nil => rfl
  | cons e es ih => cases e <;> simp [writes, ih]

theorem sample_counts_append (xs ys : List Event) :
    sample_counts (xs ++ ys) = sample_counts xs ++ sample_counts ys := by
  induction xs with
  | nil => rfl
  | cons e es ih => cases e <;> simp [sample_counts, ih]

theorem freads_append (xs ys : List Event) : freads (xs ++ ys) = freads xs ++ freads ys := by
  induction xs with
  | nil => rfl
  | cons e es ih => cases e <;> simp [freads, ih]

theorem setinfo_records_append (xs ys : List Event) :
    setinfo_records (xs ++ ys) = setinfo_records xs ++ setinfo_records ys := by
  induction xs with
  | nil => rfl
  | cons e es ih => cases e <;> simp [setinfo_records, ih]

theorem block_samples_mul_div (b : Nat) (h1 : 1 ≤ b) :
    block_samples b * b / b = block_samples b := Nat.mul_div_cancel _ (by omega)

theorem loop_events_sample_sum (data : List Nat) (b : Nat) (h1 : 1 ≤ b) (h2 : b ≤ 32768) :
    ∀ (k pos : Nat), (data.length - pos) / (block_samples b * b) = k →
      (sample_counts (loop_events data b k pos)).sum = (data.length - pos) / b := by
  have hc := block_samples_pos b h1 h2
  have hR : 0 < block_samples b * b := Nat.mul_pos (by omega) (by omega)
  intro k
  induction k with
  | zero =>
    intro pos hk
    have hlt : data.length - pos < block_samples b * b := by
      have := (Nat.div_lt_iff_lt_mul hR).mp (show (data.length - pos) / (block_samples b * b) < 1 by omega)
      omega
    have hlen := block_at_length data b pos
    have hl : (block_at data b pos).length = data.length - pos := by omega
    simp [loop_events, round_events, sample_counts, hl]
  | succ k ih =>
    intro pos hk
    have hge : block_samples b * b ≤ data.length - pos := by
      have := (Nat.le_div_iff_mul_le hR).mp (show 1 ≤ (data.length - pos) / (block_samples b * b) by omega)
      omega
    have hlen := block_at_length data b pos
    have hl : (block_at data b pos).length = block_samples b * b := by omega
    have e : data.length - (pos + block_samples b * b) = data.length - pos - block_samples b * b := by
      omega
    have hk2 : (data.length - (pos + block_samples b * b)) / (block_samples b * b) = k := by
      have := Nat.div_eq_sub_div hR hge
      rw [e]; omega
    have hsum : (data.length - pos) / b
        = block_samples b + (data.length - pos - block_samples b * b) / b := by
      have hs : data.length - pos = data.length - pos - block_samples b * b + b * block_samples b := by
        rw [Nat.mul_comm b]; omega
      conv_lhs => rw [hs]
      rw [Nat.add_mul_div_left _ _ (by omega : 0 < b)]; omega
    rw [loop_events, sample_counts_append, List.sum_append, ih _ hk2, e, hsum]
    simp [round_events, sample_counts, hl, block_samples_mul_div b h1]

theorem loop_events_writes_join (data : List Nat) (b : Nat) (h1 : 1 ≤ b) (h2 : b ≤ 32768) :
    ∀ (k pos : Nat), (data.length - pos) / (block_samples b * b) = k →
      (writes (loop_events data b k pos)).flatten
        = (data.drop pos).take ((data.length - pos) / b * b) := by
  have hc := block_samples_pos b h1 h2
  have hR : 0 < block_samples b * b := Nat.mul_pos (by omega) (by omega)
  intro k
  induction k with
  | zero =>
    intro pos hk
    have hlt : data.length - pos < block_samples b * b := by
      have := (Nat.div_lt_iff_lt_mul hR).mp (show (data.length - pos) / (block_samples b * b) < 1 by omega)
      omega
    have hlen := block_at_length data b pos
    have hl : (block_at data b pos).length = data.length - pos := by omega
    have hblk : block_at data b pos = data.drop pos := by
      unfold block_at
      exact List.take_of_length_le (by rw [List.length_drop]; omega)
    simp [loop_events, round_events, writes, hl, hblk]
  | succ k ih =>
    intro pos hk
    have hge : block_samples b * b ≤ data.length - pos := by
      have := (Nat.le_div_iff_mul_le hR).mp (show 1 ≤ (data.length - pos) / (block_samples b * b) by omega)
      omega
    have hlen := block_at_length data b pos
    have hl : (block_at data b pos).length = block_samples b * b := by omega
    have e : data.length - (pos + block_samples b * b) = data.length - pos - block_samples b * b := by
      omega
    have hk2 : (data.length - (pos + block_samples b * b)) / (block_samples b * b) = k := by
      have := Nat.div_eq_sub_div hR hge
      rw [e]; omega
    have hsum : (data.length - pos) / b
        = block_samples b + (data.length - pos - block_samples b * b) / b := by
      have hs : data.length - pos = data.length - pos - block_samples b * b + b * block_samples b := by
        rw [Nat.mul_comm b]; omega
      conv_lhs => rw [hs]
      rw [Nat.add_mul_div_left _ _ (by omega : 0 < b)]; omega
    have hfull : (block_at data b pos).take ((block_at data b pos).length / b * b)
        = (data.drop pos).take (block_samples b * b) := by
      rw [hl, block_samples_mul_div b h1]
      exact List.take_of_length_le (by rw [hl])
    rw [loop_events, writes_append, List.flatten_append, ih _ hk2, e, hsum, Nat.add_mul,
      List.take_add, List.drop_drop]
    simp only [round_events, writes, List.flatten_cons, List.flatten_nil, List.append_nil, hfull]

theorem loop_events_freads (data : List Nat) (b : Nat) (h1 : 1 ≤ b) (h2 : b ≤ 32768) :
    ∀ (k pos : Nat), pos ≤ data.length → (data.length - pos) / (block_samples b * b) = k →
      ∀ q ∈ freads (loop_events data b k pos),
        pos ≤ q.1 ∧ q.1 + q.2.2.1 ≤ data.length ∧ q.2.1 = block_samples b * b := by
  have hc := block_samples_pos b h1 h2
  have hR : 0 < block_samples b * b := Nat.mul_pos (by omega) (by omega)
  intro k
  induction k with
  | zero =>
    intro pos hpos hk q hq
    have hlen : (block_at data b pos).length ≤ data.length - pos := by
      rw [block_at_length]; exact Nat.min_le_right _ _
    have hd : data.length - pos + pos = data.length := Nat.sub_add_cancel hpos
    simp only [loop_events, round_events, freads, List.mem_singleton] at hq
    subst hq
    refine ⟨le_refl _, ?_, rfl⟩
    show pos + (block_at data b pos).length ≤ data.length
    omega
  | succ k ih =>
    intro pos hpos hk q hq
    have hge : block_samples b * b ≤ data.length - pos := by
      have := (Nat.le_div_iff_mul_le hR).mp (show 1 ≤ (data.length - pos) / (block_samples b * b) by omega)
      omega
    have hlen := block_at_length data b pos
    have e : data.length - (pos + block_samples b * b) = data.length - pos - block_samples b * b := by
      omega
    have hk2 : (data.length - (pos + block_samples b * b)) / (block_samples b * b) = k := by
      have := Nat.div_eq_sub_div hR hge
      rw [e]; omega
    rw [loop_events, freads_append, List.mem_append] at hq
    rcases hq with hq | hq
    · have hlen2 : (block_at data b pos).length ≤ data.length - pos := by
        rw [block_at_length]; exact Nat.min_le_right _ _
      have hd : data.length - pos + pos = data.length := Nat.sub_add_cancel hpos
      simp only [round_events, freads, List.mem_singleton] at hq
      subst hq
      refine ⟨le_refl _, ?_, rfl⟩
      show pos + (block_at data b pos).length ≤ data.length
      omega
    · have := ih (pos + block_samples b * b) (by omega) hk2 q hq
      omega

theorem block_samples_four : block_samples 4 * 4 = 32768 := by decide

theorem loop_events_exact (data : List Nat) :
    ∀ (k pos : Nat), pos ≤ data.length → data.length - pos = 32768 * k →
      (writes (loop_events data 4 k pos)).map List.length = List.replicate k 32768 ++ [0]
      ∧ sample_counts (loop_events data 4 k pos) = List.replicate k 8192 ++ [0]
      ∧ ∃ earlier, freads (loop_events data 4 k pos)
          = earlier ++ [(data.length, 32768, 0, true)] := by
  intro k
  induction k with
  | zero =>
    intro pos hpos hk
    have hp : pos = data.length := by omega
    subst hp
    have hlen := block_at_length data 4 data.length
    rw [block_samples_four] at hlen
    have hl : (block_at data 4 data.length).length = 0 := by omega
    refine ⟨?_, ?_, [], ?_⟩
    · simp [loop_events, round_events, writes, hl]
    · simp [loop_events, round_events, sample_counts, hl]
    · simp [loop_events, round_events, freads, hl, block_samples_four]
  | succ k ih =>
    intro pos hpos hk
    have hlen := block_at_length data 4 pos
    rw [block_samples_four] at hlen
    have hl : (block_at data 4 pos).length = 32768 := by omega
    obtain ⟨hw, hs, earlier, hf⟩ := ih (pos + 32768) (by omega) (by omega)
    have htake : ((block_at data 4 pos).take (32768 / 4 * 4)).length = 32768 := by
      rw [List.length_take, hl]; decide
    refine ⟨?_, ?_, (pos, 32768, 32768, false) :: earlier, ?_⟩
    · rw [loop_events, block_samples_four, writes_append, List.map_append, hw]
      simp [round_events, writes, hl, htake, List.replicate_succ]
    · rw [loop_events, block_samples_four, sample_counts_append, hs]
      simp [round_events, sample_counts, hl, List.replicate_succ]
    · rw [loop_events, block_samples_four, freads_append, hf]
      simp [round_events, freads, hl, block_samples_four]

/-! ## The runs of `main` -/

theorem writes_debug_dump (d : Int) (ai : audio_info) : writes (debug_dump d ai) = [] := by
  unfold debug_dump; split <;> rfl

theorem sample_counts_debug_dump (d : Int) (ai : audio_info) :
    sample_counts (debug_dump d ai) = [] := by
  unfold debug_dump; split <;> rfl

theorem freads_debug_dump (d : Int) (ai : audio_info) : freads (debug_dump d ai) = [] := by
  unfold debug_dump; split <;> rfl

theorem setinfo_records_debug_dump (d : Int) (ai : audio_info) :
    setinfo_records (debug_dump d ai) = [] := by
  unfold debug_dump; split <;> rfl

theorem writes_setup_events (g : Globals) (ai0 ai : audio_info) (f : String) :
    writes (setup_events g ai0 ai f) = [] := by
  simp [setup_events, writes_append, writes_debug_dump, writes]

theorem sample_counts_setup_events (g : Globals) (ai0 ai : audio_info) (f : String) :
    sample_counts (setup_events g ai0 ai f) = [] := by
  simp [setup_events, sample_counts_append, sample_counts_debug_dump, sample_counts]

theorem freads_setup_events (g : Globals) (ai0 ai : audio_info) (f : String) :
    freads (setup_events g ai0 ai f) = [] := by
  simp [setup_events, freads_append, freads_debug_dump, freads]

/-- A run of `main` in which every step up to the copy loop succeeds and one
sample has between 1 and 32768 bytes: the run ends with status 0 after the
rounds of the copy loop. -/
theorem main_plays (env : Env) (g : Globals) (ai0 ai : audio_info) (f : String)
    (data : List Nat) (b fuel : Nat)
    (hopt : parse_options env.atoi env.getopt Globals.init = some g)
    (hops : env.operands = [f]) (hdev : env.open_ok = true)
    (hget : env.getinfo env.initinfo = some ai0)
    (hset : env.setinfo (configure g.rate ai0) = some ai)
    (hfs : env.fs f = some ⟨data, true⟩)
    (hb : bytes_per_sample ai = (b : Int)) (h1 : 1 ≤ b) (h2 : b ≤ 32768)
    (hfuel : (data.length - 44) / (block_samples b * b) < fuel) :
    main fuel env = (Status.exited 0,
      setup_events g ai0 ai f ++ [Event.fopen f, Event.fseek 44]
        ++ loop_events data b ((data.length - 44) / (block_samples b * b)) 44
        ++ [Event.fclose, Event.close]) := by
  obtain ⟨p1, hp1⟩ := copy_loop_run ai b hb h1 h2 data _ fuel 44
    (List.replicate BUFFER_SIZE 0) (List.length_replicate _ _) rfl hfuel
  simp only [main, hopt, hops, hdev, hget, hset, wav_open, hfs, hb, hp1]
  simp [wav_close, setup_events, hp1]

/-! ## The sample data reaches the device -/

theorem bytes_per_sample_stereo16 (ai : audio_info) (hch : ai.play.channels = 2)
    (hpr : ai.play.precision = 16) : bytes_per_sample ai = ((4 : Nat) : Int) := by
  simp [bytes_per_sample, hch, hpr]; rfl

/-- C1: when every step up to the copy loop succeeds on a file of at least 44
bytes and the record after the set-parameters request has 2 channels of 16 bits,
`main` ends with status 0 (given enough rounds), and the byte blocks it offers
to `write`, put together in order, are the bytes of the file from offset 44 up
to offset `44 + 4 * ((L - 44) / 4)`. -/
theorem main_copies_sample_data (env : Env) (g : Globals) (ai0 ai : audio_info) (f : String)
    (data : List Nat)
    (hopt : parse_options env.atoi env.getopt Globals.init = some g)
    (hops : env.operands = [f]) (hdev : env.open_ok = true)
    (hget : env.getinfo env.initinfo = some ai0)
    (hset : env.setinfo (configure g.rate ai0) = some ai)
    (hfs : env.fs f = some ⟨data, true⟩)
    (hch : ai.play.channels = 2) (hpr : ai.play.precision = 16)
    (_hL : 44 ≤ data.length) (fuel : Nat) (hfuel : (data.length - 44) / 32768 < fuel) :
    ∃ tr, main fuel env = (Status.exited 0, tr) ∧
      (writes tr).flatten = (data.take (44 + 4 * ((data.length - 44) / 4))).drop 44 := by
  have hb := bytes_per_sample_stereo16 ai hch hpr
  have hf : (data.length - 44) / (block_samples 4 * 4) < fuel := by
    rw [block_samples_four]; exact hfuel
  refine ⟨_, main_plays env g ai0 ai f data 4 fuel hopt hops hdev hget hset hfs hb
    (by decide) (by decide) hf, ?_⟩
  simp only [writes_append, writes_setup_events, List.nil_append]
  rw [show writes [Event.fopen f, Event.fseek 44] = [] from rfl,
    show writes [Event.fclose, Event.close] = [] from rfl, List.nil_append, List.append_nil,
    loop_events_writes_join data 4 (by decide) (by decide) _ 44 rfl, List.take_drop,
    Nat.mul_comm]

theorem main_copies_sample_data_witness :
    ∃ tr, main 1 (demo_env [] ["a.wav"] (some ⟨demo_data, true⟩)) = (Status.exited 0, tr) ∧
      (writes tr).flatten
        = (demo_data.take (44 + 4 * ((demo_data.length - 44) / 4))).drop 44 :=
  main_copies_sample_data (demo_env [] ["a.wav"] (some ⟨demo_data, true⟩)) Globals.init
    demo_info (configure 11025 demo_info) "a.wav" demo_data rfl rfl rfl rfl rfl rfl rfl rfl
    (by decide) 1 (by decide)

/-- The value that `read_wav_data` returns is the sample count that it
prints, whenever the buffer is smaller than 2^31 bytes. -/
theorem read_wav_data_returns_printed (p : List Nat) (m : Int) (ai : audio_info)
    (fp : Option FILE) (r : Int × List Nat × Option FILE × List Event)
    (hp : p.length < 2147483648) (h : read_wav_data p m ai fp = some r) :
    ∃ n : Nat, r.1 = (n : Int) ∧ sample_counts r.2.2.2 = [n] := by
  unfold read_wav_data at h
  simp only at h
  split at h
  · exact absurd h (by simp)
  · split at h
    · exact absurd h (by simp)
    · split at h
      · exact absurd h (by simp)
      · split at h
        · exact absurd h (by simp)
        · rename_i fp0 _ hfit
          simp only [Option.some.injEq] at h
          subst h
          refine ⟨_, ?_, rfl⟩
          have hle := Nat.div_le_self (fread (fread_request m (bytes_per_sample ai)) fp0).1.length
            (to_size_t (bytes_per_sample ai))
          exact wrap_int_of_small _ (le_trans (by decide) (Int.ofNat_nonneg _))
            (by exact_mod_cast (by omega : _ < 2147483648))

/-- C2: on a file of at least 44 bytes opened by `wav_open`, with between 1 and
32768 bytes per sample, the copy loop ends after finitely many rounds at
end-of-file; the sample counts of its `read_wav_data` calls sum to
`(L - 44) / bps` (rounded down), and every `fread` stays below offset `L`. -/
theorem copy_loop_reads_all_samples (env : Env) (wav_file : String) (g : Globals)
    (node : FileNode) (ai : audio_info) (p : List Nat)
    (hfs : env.fs wav_file = some node) (hseek : node.seekable = true)
    (hL : 44 ≤ node.data.length)
    (h1 : 1 ≤ bytes_per_sample ai) (h2 : bytes_per_sample ai ≤ 32768)
    (hp : p.length = BUFFER_SIZE) :
    (wav_open env wav_file g).1 = 0 ∧
    ∃ fuel p1 fp1 evs,
      copy_loop ai (bytes_per_sample ai) fuel p (wav_open env wav_file g).2.1.wav_fp
        = (LoopEnd.at_eof, p1, some fp1, evs) ∧
      fp1.eof = true ∧
      ((sample_counts evs).sum : Int) = ((node.data.length : Int) - 44) / bytes_per_sample ai ∧
      ∀ q ∈ freads evs, 44 ≤ q.1 ∧ q.1 + q.2.2.1 ≤ node.data.length := by
  obtain ⟨b, hb⟩ : ∃ b : Nat, bytes_per_sample ai = (b : Int) :=
    ⟨(bytes_per_sample ai).toNat, by omega⟩
  have hb1 : 1 ≤ b := by omega
  have hb2 : b ≤ 32768 := by omega
  obtain ⟨data, seekable⟩ := node
  simp only at hseek hL
  subst hseek
  obtain ⟨p1, hp1⟩ := copy_loop_run ai b hb hb1 hb2 data _
    ((data.length - 44) / (block_samples b * b) + 1) 44 p hp rfl (Nat.lt_succ_self _)
  refine ⟨by simp [wav_open, hfs], (data.length - 44) / (block_samples b * b) + 1, p1,
    ⟨data, 44 + (data.length - 44), true, true⟩,
    loop_events data b ((data.length - 44) / (block_samples b * b)) 44, ?_, rfl, ?_, ?_⟩
  · simp only [wav_open, hfs, if_true, hb]
    exact hp1
  · rw [loop_events_sample_sum data b hb1 hb2 _ 44 rfl, hb]
    have : ((data.length : Int) - 44) = ((data.length - 44 : Nat) : Int) := by omega
    rw [this]
    rfl
  · intro q hq
    have := loop_events_freads data b hb1 hb2 _ 44 hL rfl q hq
    exact ⟨this.1, this.2.1⟩

theorem copy_loop_reads_all_samples_witness :
    (wav_open (demo_env [] ["a.wav"] (some ⟨demo_data, true⟩)) "a.wav" Globals.init).1 = 0 ∧
    ∃ fuel p1 fp1 evs,
      copy_loop (configure 11025 demo_info) (bytes_per_sample (configure 11025 demo_info)) fuel
          (List.replicate BUFFER_SIZE 0)
          (wav_open (demo_env [] ["a.wav"] (some ⟨demo_data, true⟩)) "a.wav"
            Globals.init).2.1.wav_fp
        = (LoopEnd.at_eof, p1, some fp1, evs) ∧
      fp1.eof = true ∧
      ((sample_counts evs).sum : Int)
        = (((⟨demo_data, true⟩ : FileNode).data.length : Int) - 44)
            / bytes_per_sample (configure 11025 demo_info) ∧
      ∀ q ∈ freads evs, 44 ≤ q.1 ∧ q.1 + q.2.2.1 ≤ (⟨demo_data, true⟩ : FileNode).data.length :=
  copy_loop_reads_all_samples (demo_env [] ["a.wav"] (some ⟨demo_data, true⟩)) "a.wav"
    Globals.init ⟨demo_data, true⟩ (configure 11025 demo_info) (List.replicate BUFFER_SIZE 0)
    rfl rfl (by decide) (by decide) (by decide) (List.length_replicate _ _)

/-- C5: when the sample data is `k` blocks of exactly 32768 bytes (`k = 0` for
the file of 44 bytes) and one sample has 4 bytes, `main` ends with status 0
after `k` writes of 32768 bytes and one last write of zero bytes; the reads
return 8192 samples `k` times and then 0, and the last `fread`, at offset `L`,
obtains nothing and sets end-of-file. -/
theorem main_exact_blocks (env : Env) (g : Globals) (ai0 ai : audio_info) (f : String)
    (data : List Nat) (k : Nat)
    (hopt : parse_options env.atoi env.getopt Globals.init = some g)
    (hops : env.operands = [f]) (hdev : env.open_ok = true)
    (hget : env.getinfo env.initinfo = some ai0)
    (hset : env.setinfo (configure g.rate ai0) = some ai)
    (hfs : env.fs f = some ⟨data, true⟩)
    (hch : ai.play.channels = 2) (hpr : ai.play.precision = 16)
    (hL : data.length = 44 + 32768 * k) (fuel : Nat) (hfuel : k < fuel) :
    ∃ tr, main fuel env = (Status.exited 0, tr) ∧
      (writes tr).map List.length = List.replicate k 32768 ++ [0] ∧
      sample_counts tr = List.replicate k 8192 ++ [0] ∧
      ∃ earlier, freads tr = earlier ++ [(data.length, 32768, 0, true)] := by
  have hb := bytes_per_sample_stereo16 ai hch hpr
  have hk : (data.length - 44) / (block_samples 4 * 4) = k := by
    rw [block_samples_four, hL]; omega
  have hf : (data.length - 44) / (block_samples 4 * 4) < fuel := by omega
  obtain ⟨hw, hs, earlier, hr⟩ := loop_events_exact data k 44 (by omega) (by omega)
  refine ⟨_, main_plays env g ai0 ai f data 4 fuel hopt hops hdev hget hset hfs hb
    (by decide) (by decide) hf, ?_, ?_, earlier, ?_⟩
  · simp only [writes_append, writes_setup_events, List.nil_append, hk]
    rw [show writes [Event.fopen f, Event.fseek 44] = [] from rfl,
      show writes [Event.fclose, Event.close] = [] from rfl, List.nil_append, List.append_nil, hw]
  · simp only [sample_counts_append, sample_counts_setup_events, List.nil_append, hk]
    rw [show sample_counts [Event.fopen f, Event.fseek 44] = [] from rfl,
      show sample_counts [Event.fclose, Event.close] = [] from rfl, List.nil_append,
      List.append_nil, hs]
  · simp only [freads_append, freads_setup_events, List.nil_append, hk]
    rw [show freads [Event.fopen f, Event.fseek 44] = [] from rfl,
      show freads [Event.fclose, Event.close] = [] from rfl, List.nil_append,
      List.append_nil, hr]

theorem main_exact_blocks_witness :
    ∃ tr, main 1 (demo_env [] ["a.wav"] (some ⟨List.replicate 44 0, true⟩))
        = (Status.exited 0, tr) ∧
      (writes tr).map List.length = List.replicate 0 32768 ++ [0] ∧
      sample_counts tr = List.replicate 0 8192 ++ [0] ∧
      ∃ earlier, freads tr = earlier ++ [((List.replicate 44 0).length, 32768, 0, true)] :=
  main_exact_blocks (demo_env [] ["a.wav"] (some ⟨List.replicate 44 0, true⟩)) Globals.init
    demo_info (configure 11025 demo_info) "a.wav" (List.replicate 44 0) 0
    rfl rfl rfl rfl rfl rfl rfl rfl (by decide) 1 (by decide)

/-! ## The clip of the request -/

/-- The `int` variable `bps` is never negative and stays below 2^29. -/
theorem bytes_per_sample_range (ai : audio_info) :
    0 ≤ bytes_per_sample ai ∧ bytes_per_sample ai < 536870912 := by
  unfold bytes_per_sample
  have h0 : 0 ≤ (ai.play.channels * ai.play.precision) % 4294967296 :=
    Int.emod_nonneg _ (by decide)
  have h1 : (ai.play.channels * ai.play.precision) % 4294967296 < 4294967296 :=
    Int.emod_lt_of_pos _ (by decide)
  rw [Int.tdiv_eq_ediv h0 (by decide)]
  omega

theorem fread_length_le (n : Nat) (fp : FILE) : (fread n fp).1.length ≤ n := by
  unfold fread
  split
  · simp
  · simp only [List.length_take]
    exact Nat.min_le_left _ _

/-- A call of `read_wav_data` on an open stream returns when the divisor is not
zero and the bytes obtained fit the buffer; the value returned, the buffer,
the stream and the events are those of lines 152-155. -/
theorem read_wav_data_eq (p : List Nat) (m : Int) (ai : audio_info) (fp : FILE)
    (hb : bytes_per_sample ai ≠ 0) (hopen : fp.is_open = true)
    (hfit : (fread (fread_request m (bytes_per_sample ai)) fp).1.length ≤ p.length) :
    read_wav_data p m ai (some fp) =
      some (wrap_int (((fread (fread_request m (bytes_per_sample ai)) fp).1.length
            / to_size_t (bytes_per_sample ai) : Nat) : Int),
        (fread (fread_request m (bytes_per_sample ai)) fp).1
          ++ p.drop (fread (fread_request m (bytes_per_sample ai)) fp).1.length,
        some (fread (fread_request m (bytes_per_sample ai)) fp).2,
        [Event.fread fp.pos (fread_request m (bytes_per_sample ai))
            (fread (fread_request m (bytes_per_sample ai)) fp).1.length
            (fread (fread_request m (bytes_per_sample ai)) fp).2.eof,
          Event.printf_read ((fread (fread_request m (bytes_per_sample ai)) fp).1.length
            / to_size_t (bytes_per_sample ai))]) := by
  unfold read_wav_data
  simp only
  rw [if_neg hb, if_neg (by simp [hopen]), if_neg (by omega)]

/-- The one `fread` call of `read_wav_data`: it starts at the position of the
stream and asks for `fread_request max_samples bps` bytes. -/
theorem read_wav_data_asks (p : List Nat) (m : Int) (ai : audio_info) (fp : FILE)
    (r : Int × List Nat × Option FILE × List Event)
    (h : read_wav_data p m ai (some fp) = some r) :
    ∃ got e, freads r.2.2.2 = [(fp.pos, fread_request m (bytes_per_sample ai), got, e)] := by
  unfold read_wav_data at h
  simp only at h
  split at h
  · exact absurd h (by simp)
  · split at h
    · exact absurd h (by simp)
    · split at h
      · exact absurd h (by simp)
      · simp only [Option.some.injEq] at h
        subst h
        exact ⟨_, _, rfl⟩

theorem clip_samples_of_gt (m bps : Int) (hb : 1 ≤ bps) (h : m * bps > 32768) :
    clip_samples m bps = 32768 / bps := by
  unfold clip_samples
  rw [Int.tdiv_eq_ediv (by decide) (by omega)]
  have hlt : 32768 / bps < m := by
    by_contra hcon
    have hle : m ≤ 32768 / bps := by omega
    have h3 : m * bps ≤ 32768 / bps * bps := Int.mul_le_mul_of_nonneg_right hle (by omega)
    have h4 : 32768 / bps * bps ≤ 32768 := Int.ediv_mul_le _ (by omega)
    omega
  rw [if_pos hlt]

theorem clip_samples_of_le (m bps : Int) (hb : 1 ≤ bps) (h : m * bps ≤ 32768) :
    clip_samples m bps = m := by
  unfold clip_samples
  rw [Int.tdiv_eq_ediv (by decide) (by omega)]
  have hle : m ≤ 32768 / bps := Int.le_ediv_of_mul_le (by omega) h
  rw [if_neg (by omega)]

theorem fread_request_of_gt (m bps : Int) (hb : 1 ≤ bps) (h : m * bps > 32768) :
    fread_request m bps = (32768 / bps * bps).toNat := by
  unfold fread_request
  rw [clip_samples_of_gt m bps hb h]
  have h4 : 32768 / bps * bps ≤ 32768 := Int.ediv_mul_le _ (by omega)
  have h5 : 0 ≤ 32768 / bps * bps :=
    Int.mul_nonneg (Int.ediv_nonneg (by decide) (by omega)) (by omega)
  rw [wrap_int_of_small _ (by omega) (by omega)]
  unfold to_size_t
  omega

theorem fread_request_of_le (m bps : Int) (hb : 1 ≤ bps) (hm : 0 ≤ m) (h : m * bps ≤ 32768) :
    fread_request m bps = (m * bps).toNat := by
  unfold fread_request
  rw [clip_samples_of_le m bps hb h]
  have h5 : 0 ≤ m * bps := Int.mul_nonneg hm (by omega)
  rw [wrap_int_of_small _ (by omega) (by omega)]
  unfold to_size_t
  omega

/-- For a count that is not negative the request fits the buffer: the clip of
lines 149-150 bounds `max_samples * bps` by 32768. -/
theorem fread_request_le_of_nonneg (m bps : Int) (hb : 1 ≤ bps) (hm : 0 ≤ m) :
    fread_request m bps ≤ BUFFER_SIZE := by
  by_cases h : m * bps ≤ 32768
  · rw [fread_request_of_le m bps hb hm h]
    unfold BUFFER_SIZE
    omega
  · rw [fread_request_of_gt m bps hb (by omega)]
    have h4 : 32768 / bps * bps ≤ 32768 := Int.ediv_mul_le _ (by omega)
    unfold BUFFER_SIZE
    omega

/-- A call of `read_wav_data` with a count that is not negative, on an open
stream and into a buffer of at least 32768 bytes, returns. -/
theorem read_wav_data_returns (p : List Nat) (m : Int) (ai : audio_info) (fp : FILE)
    (hb : 1 ≤ bytes_per_sample ai) (hm : 0 ≤ m) (hp : BUFFER_SIZE ≤ p.length)
    (hopen : fp.is_open = true) :
    ∃ r, read_wav_data p m ai (some fp) = some r :=
  ⟨_, read_wav_data_eq p m ai fp (by omega) hopen
    (le_trans (fread_length_le _ _)
      (le_trans (fread_request_le_of_nonneg m _ hb hm) hp))⟩

/-- C3: with at least one byte per sample, a call of `read_wav_data` with
`max_samples * bps > 32768` clips the count to `32768 / bps` (rounded down), and
on an open stream and a buffer of 32768 bytes or more it returns after asking
`fread` for `(32768 / bps) * bps` bytes; with `max_samples * bps <= 32768` the
count stays `max_samples`, every call that returns has asked `fread` for
`max_samples * bps` bytes (as `int`, converted to `size_t`), and when
`max_samples` is not negative the call returns after asking for exactly
`max_samples * bps` bytes. -/
theorem read_wav_data_clips (ai : audio_info) (max_samples : Int)
    (hb : 1 ≤ bytes_per_sample ai) :
    (max_samples * bytes_per_sample ai > 32768 →
      clip_samples max_samples (bytes_per_sample ai) = 32768 / bytes_per_sample ai ∧
      ∀ (p : List Nat) (fp : FILE), BUFFER_SIZE ≤ p.length → fp.is_open = true →
        ∃ r got e, read_wav_data p max_samples ai (some fp) = some r ∧
          freads r.2.2.2
            = [(fp.pos, (32768 / bytes_per_sample ai * bytes_per_sample ai).toNat, got, e)]) ∧
    (max_samples * bytes_per_sample ai ≤ 32768 →
      clip_samples max_samples (bytes_per_sample ai) = max_samples ∧
      (∀ (p : List Nat) (fp : FILE) r, read_wav_data p max_samples ai (some fp) = some r →
        ∃ got e, freads r.2.2.2
          = [(fp.pos, to_size_t (wrap_int (max_samples * bytes_per_sample ai)), got, e)]) ∧
      (0 ≤ max_samples →
        ∀ (p : List Nat) (fp : FILE), BUFFER_SIZE ≤ p.length → fp.is_open = true →
          ∃ r got e, read_wav_data p max_samples ai (some fp) = some r ∧
            freads r.2.2.2
              = [(fp.pos, (max_samples * bytes_per_sample ai).toNat, got, e)])) := by
  constructor
  · intro h
    have hm : 0 ≤ max_samples := by
      by_contra hneg
      have : max_samples * bytes_per_sample ai ≤ 0 :=
        Int.mul_nonpos_of_nonpos_of_nonneg (by omega) (by omega)
      omega
    refine ⟨clip_samples_of_gt _ _ hb h, fun p fp hp hopen => ?_⟩
    obtain ⟨r, hr⟩ := read_wav_data_returns p max_samples ai fp hb hm hp hopen
    obtain ⟨got, e, hq⟩ := read_wav_data_asks p max_samples ai fp r hr
    exact ⟨r, got, e, hr, by rw [hq, fread_request_of_gt _ _ hb h]⟩
  · intro h
    refine ⟨clip_samples_of_le _ _ hb h, fun p fp r hr => ?_, fun hm p fp hp hopen => ?_⟩
    · obtain ⟨got, e, hq⟩ := read_wav_data_asks p max_samples ai fp r hr
      refine ⟨got, e, ?_⟩
      rw [hq]
      unfold fread_request
      rw [clip_samples_of_le _ _ hb h]
    · obtain ⟨r, hr⟩ := read_wav_data_returns p max_samples ai fp hb hm hp hopen
      obtain ⟨got, e, hq⟩ := read_wav_data_asks p max_samples ai fp r hr
      exact ⟨r, got, e, hr, by rw [hq, fread_request_of_le _ _ hb hm h]⟩

theorem read_wav_data_clips_witness :
    (clip_samples 9000 (bytes_per_sample (configure 11025 demo_info))
        = 32768 / bytes_per_sample (configure 11025 demo_info) ∧
      ∃ r got e, read_wav_data (List.replicate BUFFER_SIZE 0) 9000 (configure 11025 demo_info)
          (some ⟨demo_data, 44, false, true⟩) = some r ∧
        freads r.2.2.2
          = [((⟨demo_data, 44, false, true⟩ : FILE).pos,
              (32768 / bytes_per_sample (configure 11025 demo_info)
                * bytes_per_sample (configure 11025 demo_info)).toNat, got, e)]) ∧
    (clip_samples 100 (bytes_per_sample (configure 11025 demo_info)) = 100 ∧
      ∃ r got e, read_wav_data (List.replicate BUFFER_SIZE 0) 100 (configure 11025 demo_info)
          (some ⟨demo_data, 44, false, true⟩) = some r ∧
        freads r.2.2.2
          = [((⟨demo_data, 44, false, true⟩ : FILE).pos,
              ((100 : Int) * bytes_per_sample (configure 11025 demo_info)).toNat, got, e)]) :=
  ⟨⟨((read_wav_data_clips (configure 11025 demo_info) 9000 (by decide)).1 (by decide)).1,
      ((read_wav_data_clips (configure 11025 demo_info) 9000 (by decide)).1 (by decide)).2
        (List.replicate BUFFER_SIZE 0) ⟨demo_data, 44, false, true⟩
        (Nat.le_of_eq (List.length_replicate _ _).symm) rfl⟩,
    ⟨((read_wav_data_clips (configure 11025 demo_info) 100 (by decide)).2 (by decide)).1,
      ((read_wav_data_clips (configure 11025 demo_info) 100 (by decide)).2 (by decide)).2.2
        (by decide) (List.replicate BUFFER_SIZE 0) ⟨demo_data, 44, false, true⟩
        (Nat.le_of_eq (List.length_replicate _ _).symm) rfl⟩⟩

/-- The product of lines 113 and 146 wraps at 32 bits: with 536870913 channels
of 16 bits one sample has 2 bytes and a request of 8192 samples asks for 16384
bytes; with 1073741824 channels of 16 bits the divisor is 0. -/
theorem bytes_per_sample_wraps :
    bytes_per_sample { demo_info with
      play := { demo_info.play with channels := 536870913, precision := 16 } } = 2 ∧
    fread_request 8192 (bytes_per_sample { demo_info with
      play := { demo_info.play with channels := 536870913, precision := 16 } }) = 16384 ∧
    bytes_per_sample { demo_info with
      play := { demo_info.play with channels := 1073741824, precision := 16 } } = 0 ∧
    read_wav_data [] 8192 { demo_info with
      play := { demo_info.play with channels := 1073741824, precision := 16 } }
      (some ⟨[], 44, false, true⟩) = none := by
  decide

/-! ## The request and the capacity of the buffer -/

/-- No block that the copy loop offers to `write` is longer than the buffer. -/
theorem loop_events_writes_le (data : List Nat) (b : Nat) :
    ∀ (k pos : Nat), ∀ w ∈ writes (loop_events data b k pos), w.length ≤ BUFFER_SIZE := by
  have hR := block_samples_mul_le b
  have hround : ∀ pos, ∀ w ∈ writes (round_events data b pos), w.length ≤ BUFFER_SIZE := by
    intro pos w hw
    have hlen := block_at_length data b pos
    simp only [round_events, writes, List.mem_singleton] at hw
    subst hw
    rw [List.length_take]
    unfold BUFFER_SIZE
    omega
  intro k
  induction k with
  | zero => intro pos w hw; exact hround pos w hw
  | succ k ih =>
    intro pos w hw
    rw [loop_events, writes_append, List.mem_append] at hw
    rcases hw with hw | hw
    · exact hround pos w hw
    · exact ih _ w hw

/-- The `int` value -4 converted to an unsigned type of 16 bits or more is
above 32768, whatever the width. -/
theorem negative_count_any_width (w : Nat) (hw : 16 ≤ w) :
    (BUFFER_SIZE : Int) < (wrap_int (-1 * 4)) % 2 ^ w := by
  have hpow : (2 : Int) ^ 16 ≤ 2 ^ w := pow_le_pow_right₀ (by decide) hw
  have h16 : (2 : Int) ^ 16 = 65536 := by decide
  have hv : wrap_int (-1 * 4) = -4 := by decide
  rw [hv]
  have hmod : (-4 : Int) % 2 ^ w = 2 ^ w - 4 := by
    have h1 : ((-4 : Int) + 2 ^ w) % 2 ^ w = -4 + 2 ^ w :=
      Int.emod_eq_of_lt (by omega) (by omega)
    rw [Int.add_emod_self] at h1
    omega
  rw [hmod]
  unfold BUFFER_SIZE
  push_cast
  omega

/-- C4, refuted as stated: a call of `read_wav_data` with `max_samples = -1`
and the configured format (4 bytes per sample) is not clipped, and the `int`
product -4 reaches `fread` as a `size_t` above 32768. -/
theorem read_wav_data_negative_request :
    ¬ ∀ (p : List Nat) (max_samples : Int) (ai : audio_info) (fp : FILE)
        (r : Int × List Nat × Option FILE × List Event),
        0 < bytes_per_sample ai → read_wav_data p max_samples ai (some fp) = some r →
        ∀ q ∈ freads r.2.2.2, q.2.1 ≤ BUFFER_SIZE := by
  intro h
  have hreq : fread_request (-1) (bytes_per_sample (configure 11025 demo_info))
      = 4294967292 := by decide
  have hlen : (fread (fread_request (-1) (bytes_per_sample (configure 11025 demo_info)))
      ⟨demo_data, 44, false, true⟩).1.length ≤ (List.replicate BUFFER_SIZE 0).length := by
    rw [hreq, List.length_replicate]
    decide
  have hr := read_wav_data_eq (List.replicate BUFFER_SIZE 0) (-1) (configure 11025 demo_info)
    ⟨demo_data, 44, false, true⟩ (by decide) rfl hlen
  have h2 : fread_request (-1) (bytes_per_sample (configure 11025 demo_info)) ≤ BUFFER_SIZE :=
    h _ _ _ _ _ (by decide) hr _ (List.mem_cons_self _ _)
  rw [hreq] at h2
  exact absurd h2 (by decide)

/-- C4, amended: for every count that is not negative (the count of `main` is
8192) and every record with at least one byte per sample, `read_wav_data` asks
`fread` for at most 32768 bytes; on an open stream and a buffer of 32768 bytes
or more the call returns, `fread` obtains no more than was asked, and the byte
count of line 124, the value returned times `bps`, is at most 32768. -/
theorem read_wav_data_request_fits (ai : audio_info) (max_samples : Int)
    (hb : 0 < bytes_per_sample ai) (hm : 0 ≤ max_samples) :
    fread_request max_samples (bytes_per_sample ai) ≤ BUFFER_SIZE ∧
    ∀ (p : List Nat) (fp : FILE), BUFFER_SIZE ≤ p.length → fp.is_open = true →
      ∃ r asked got e, read_wav_data p max_samples ai (some fp) = some r ∧
        freads r.2.2.2 = [(fp.pos, asked, got, e)] ∧
        asked ≤ BUFFER_SIZE ∧ got ≤ asked ∧
        to_size_t (wrap_int (r.1 * bytes_per_sample ai)) ≤ BUFFER_SIZE := by
  have hreq := fread_request_le_of_nonneg max_samples (bytes_per_sample ai) (by omega) hm
  refine ⟨hreq, fun p fp hp hopen => ?_⟩
  have hgot := fread_length_le (fread_request max_samples (bytes_per_sample ai)) fp
  have hr := read_wav_data_eq p max_samples ai fp (by omega) hopen (by omega)
  refine ⟨_, _, _, _, hr, rfl, hreq, hgot, ?_⟩
  obtain ⟨b, hbn⟩ : ∃ b : Nat, bytes_per_sample ai = (b : Int) :=
    ⟨(bytes_per_sample ai).toNat, by omega⟩
  have hrange := bytes_per_sample_range ai
  simp only [hbn] at hrange ⊢
  have hsz : to_size_t (b : Int) = b := to_size_t_natCast b (by omega)
  rw [hsz]
  have hdiv : (fread (fread_request max_samples (b : Int)) fp).1.length / b * b
      ≤ (fread (fread_request max_samples (b : Int)) fp).1.length := Nat.div_mul_le_self _ _
  have hgot2 : (fread (fread_request max_samples (b : Int)) fp).1.length ≤ BUFFER_SIZE := by
    rw [hbn] at hgot hreq; omega
  have hn : (fread (fread_request max_samples (b : Int)) fp).1.length / b
      ≤ (fread (fread_request max_samples (b : Int)) fp).1.length := Nat.div_le_self _ _
  unfold BUFFER_SIZE at hgot2 ⊢
  rw [wrap_int_of_small _ (le_trans (by decide) (Int.ofNat_nonneg _))
    (by exact_mod_cast (by omega : _ < 2147483648))]
  have hc : (((fread (fread_request max_samples (b : Int)) fp).1.length / b : Nat) : Int)
      * (b : Int)
      = (((fread (fread_request max_samples (b : Int)) fp).1.length / b * b : Nat) : Int) := by
    push_cast; rfl
  rw [hc, wrap_int_of_small _ (by omega) (by omega), to_size_t_natCast _ (by omega)]
  omega

theorem read_wav_data_request_fits_witness :
    fread_request 8192 (bytes_per_sample (configure 11025 demo_info)) ≤ BUFFER_SIZE ∧
    ∃ r asked got e,
      read_wav_data (List.replicate BUFFER_SIZE 0) 8192 (configure 11025 demo_info)
        (some ⟨demo_data, 44, false, true⟩) = some r ∧
      freads r.2.2.2 = [((⟨demo_data, 44, false, true⟩ : FILE).pos, asked, got, e)] ∧
      asked ≤ BUFFER_SIZE ∧ got ≤ asked ∧
      to_size_t (wrap_int (r.1 * bytes_per_sample (configure 11025 demo_info)))
        ≤ BUFFER_SIZE :=
  ⟨(read_wav_data_request_fits (configure 11025 demo_info) 8192 (by decide) (by decide)).1,
    (read_wav_data_request_fits (configure 11025 demo_info) 8192 (by decide) (by decide)).2
      (List.replicate BUFFER_SIZE 0) ⟨demo_data, 44, false, true⟩
      (Nat.le_of_eq (List.length_replicate _ _).symm) rfl⟩

/-! ## Usage errors and the exit status -/

/-- The option loop calls `usage` exactly when `getopt` returns a value other
than `'d'` and `'r'`. -/
theorem parse_options_eq_none (atoi : String → Int) (opts : List (Char × String)) :
    ∀ g : Globals, parse_options atoi opts g = none ↔ ∃ o ∈ opts, o.1 ≠ 'd' ∧ o.1 ≠ 'r' := by
  induction opts with
  | nil => intro g; simp [parse_options]
  | cons o rest ih =>
    intro g
    obtain ⟨ch, optarg⟩ := o
    unfold parse_options
    by_cases hd : ch = 'd'
    · simp [hd, ih]
    · by_cases hr : ch = 'r'
      · simp [hr, ih]
      · simp [hd, hr]

/-- C6: when `getopt` reports an option other than `-d` and `-r`, or the number
of arguments left after the options is not one, `main` prints the usage text
and ends with status 1, and does nothing else: the device and the input file
are not opened. -/
theorem main_usage (fuel : Nat) (env : Env)
    (h : (∃ o ∈ env.getopt, o.1 ≠ 'd' ∧ o.1 ≠ 'r') ∨ env.operands.length ≠ 1) :
    main fuel env = (Status.exited 1, [Event.usage]) := by
  unfold main
  cases hp : parse_options env.atoi env.getopt Globals.init with
  | none => rfl
  | some g =>
    have hno : ¬ ∃ o ∈ env.getopt, o.1 ≠ 'd' ∧ o.1 ≠ 'r' := by
      intro hex
      have := (parse_options_eq_none env.atoi env.getopt Globals.init).mpr hex
      rw [hp] at this
      exact absurd this (by simp)
    have hlen : env.operands.length ≠ 1 := h.resolve_left hno
    match hops : env.operands with
    | [] => rfl
    | [f] => rw [hops] at hlen; exact absurd rfl hlen
    | _ :: _ :: _ => rfl

theorem main_usage_witness :
    main 0 (demo_env [] ["a.wav", "b.wav", "c.wav"] (some ⟨demo_data, true⟩))
        = (Status.exited 1, [Event.usage]) ∧
      main 0 (demo_env [('d', ""), ('?', "")] ["a.wav"] (some ⟨demo_data, true⟩))
        = (Status.exited 1, [Event.usage]) :=
  ⟨main_usage 0 (demo_env [] ["a.wav", "b.wav", "c.wav"] (some ⟨demo_data, true⟩))
      (Or.inr (by decide)),
    main_usage 0 (demo_env [('d', ""), ('?', "")] ["a.wav"] (some ⟨demo_data, true⟩))
      (Or.inl ⟨('?', ""), by decide, by decide, by decide⟩)⟩

/-- When the copy loop ends at end-of-file, `wav_fp` is a stream whose
end-of-file indicator is set. -/
theorem copy_loop_at_eof (ai : audio_info) (bps : Int) :
    ∀ (fuel : Nat) (p : List Nat) (wav_fp : Option FILE) (p1 : List Nat) (fp1 : Option FILE)
      (evs : List Event),
      copy_loop ai bps fuel p wav_fp = (LoopEnd.at_eof, p1, fp1, evs) →
      ∃ f, fp1 = some f ∧ f.eof = true := by
  intro fuel
  induction fuel with
  | zero => intro p wav_fp p1 fp1 evs h; simp [copy_loop] at h
  | succ n ih =>
    intro p wav_fp p1 fp1 evs h
    rw [copy_loop] at h
    cases hr : read_wav_data p 8192 ai wav_fp with
    | none => rw [hr] at h; simp at h
    | some r =>
      obtain ⟨nsamples, buf1, fp0, ev⟩ := r
      rw [hr] at h
      simp only at h
      cases fp0 with
      | none => simp at h
      | some f =>
        simp only at h
        by_cases heof : f.eof = true
        · rw [if_pos heof] at h
          simp only [Prod.mk.injEq] at h
          exact ⟨f, h.2.2.1.symm, heof⟩
        · rw [if_neg heof] at h
          simp only [Prod.mk.injEq] at h
          obtain ⟨he, _, hfp, _⟩ := h
          exact ih buf1 (some f) (copy_loop ai bps n buf1 (some f)).2.1 fp1
            (copy_loop ai bps n buf1 (some f)).2.2.2 (by rw [← he, ← hfp])

theorem wav_open_fails (env : Env) (f : String) (g : Globals)
    (h : env.fs f = none ∨ ∃ node, env.fs f = some node ∧ node.seekable = false) :
    (wav_open env f g).1 = 1 ∧ writes (wav_open env f g).2.2 = [] := by
  rcases h with h | ⟨node, h, hs⟩
  · simp [wav_open, h, writes]
  · simp [wav_open, h, hs, writes]

/-- C7: when the one argument names a file that `fopen` cannot open or that
cannot be positioned, `main` ends with status 1 and no `write` is issued; and
a run of `main` that ends with status 0 has opened the device, passed both
requests, opened the file with `wav_open` returning 0, and left the copy loop
with the end-of-file indicator set. -/
theorem main_exit_status (fuel : Nat) (env : Env) :
    (∀ f, env.operands = [f] →
      (env.fs f = none ∨ ∃ node, env.fs f = some node ∧ node.seekable = false) →
      ∃ tr, main fuel env = (Status.exited 1, tr) ∧ writes tr = []) ∧
    (∀ tr, main fuel env = (Status.exited 0, tr) →
      env.open_ok = true ∧
      ∃ g ai0 ai f, parse_options env.atoi env.getopt Globals.init = some g ∧
        env.operands = [f] ∧ env.getinfo env.initinfo = some ai0 ∧
        env.setinfo (configure g.rate ai0) = some ai ∧ (wav_open env f g).1 = 0 ∧
        ∃ p fp evs, copy_loop ai (bytes_per_sample ai) fuel (List.replicate BUFFER_SIZE 0)
            (wav_open env f g).2.1.wav_fp = (LoopEnd.at_eof, p, some fp, evs) ∧
          fp.eof = true) := by
  constructor
  · intro f hops hbad
    unfold main
    cases parse_options env.atoi env.getopt Globals.init with
    | none => exact ⟨_, rfl, rfl⟩
    | some g =>
      simp only [hops]
      cases hdev : env.open_ok with
      | false => exact ⟨_, rfl, rfl⟩
      | true =>
        simp only [Bool.true_eq_false, if_false]
        cases hget : env.getinfo env.initinfo with
        | none => exact ⟨_, rfl, rfl⟩
        | some ai0 =>
          simp only
          cases hset : env.setinfo (configure g.rate ai0) with
          | none =>
            refine ⟨_, rfl, ?_⟩
            simp [writes_append, writes_debug_dump, writes]
          | some ai =>
            obtain ⟨h1, hw⟩ := wav_open_fails env f g hbad
            simp only
            rw [if_pos (by rw [h1]; decide)]
            refine ⟨_, rfl, ?_⟩
            simp [writes_append, writes_debug_dump, writes, hw]
  · intro tr h
    unfold main at h
    cases hp : parse_options env.atoi env.getopt Globals.init with
    | none => rw [hp] at h; simp at h
    | some g =>
      rw [hp] at h
      match hops : env.operands with
      | [] => rw [hops] at h; simp at h
      | _ :: _ :: _ => rw [hops] at h; simp at h
      | [f] =>
        rw [hops] at h
        simp only at h
        cases hdev : env.open_ok with
        | false => rw [hdev] at h; simp at h
        | true =>
          rw [hdev] at h
          simp only [Bool.true_eq_false, if_false] at h
          cases hget : env.getinfo env.initinfo with
          | none => rw [hget] at h; simp at h
          | some ai0 =>
            rw [hget] at h
            simp only at h
            cases hset : env.setinfo (configure g.rate ai0) with
            | none => rw [hset] at h; simp at h
            | some ai =>
              rw [hset] at h
              simp only at h
              by_cases ho : (wav_open env f g).1 = 0
              · rw [if_neg (by simpa using ho)] at h
                rcases hloop : copy_loop ai (bytes_per_sample ai) fuel
                    (List.replicate BUFFER_SIZE 0) (wav_open env f g).2.1.wav_fp
                  with ⟨e, p, fp, evs⟩
                rw [hloop] at h
                cases e with
                | fault => simp at h
                | running => simp at h
                | at_eof =>
                  obtain ⟨f1, hf1, heof⟩ := copy_loop_at_eof ai _ fuel _ _ p fp evs hloop
                  subst hf1
                  exact ⟨rfl, g, ai0, ai, f, rfl, rfl, rfl, hset, ho, p, f1, evs, hloop, heof⟩
              · rw [if_pos (by simpa using ho)] at h
                simp at h

theorem main_exit_status_witness :
    (∃ tr, main 0 (demo_env [] ["a.wav"] none) = (Status.exited 1, tr) ∧ writes tr = []) ∧
    ∃ g ai0 ai f,
      parse_options demo_atoi [] Globals.init = some g ∧
      (demo_env [] ["a.wav"] (some ⟨demo_data, true⟩)).operands = [f] ∧
      (demo_env [] ["a.wav"] (some ⟨demo_data, true⟩)).getinfo
        (demo_env [] ["a.wav"] (some ⟨demo_data, true⟩)).initinfo = some ai0 ∧
      (demo_env [] ["a.wav"] (some ⟨demo_data, true⟩)).setinfo (configure g.rate ai0) = some ai ∧
      (wav_open (demo_env [] ["a.wav"] (some ⟨demo_data, true⟩)) f g).1 = 0 ∧
      ∃ p fp evs, copy_loop ai (bytes_per_sample ai) 1 (List.replicate BUFFER_SIZE 0)
          (wav_open (demo_env [] ["a.wav"] (some ⟨demo_data, true⟩)) f g).2.1.wav_fp
            = (LoopEnd.at_eof, p, some fp, evs) ∧
        fp.eof = true :=
  ⟨(main_exit_status 0 (demo_env [] ["a.wav"] none)).1 "a.wav" rfl (Or.inl rfl),
    ((main_exit_status 1 (demo_env [] ["a.wav"] (some ⟨demo_data, true⟩))).2 _
      (main_plays (demo_env [] ["a.wav"] (some ⟨demo_data, true⟩)) Globals.init demo_info
        (configure 11025 demo_info) "a.wav" demo_data 4 1 rfl rfl rfl rfl rfl rfl rfl
        (by decide) (by decide) (by decide))).2⟩

/-! ## The record passed to the set-parameters request -/

theorem parse_options_rate (atoi : String → Int) (opts : List (Char × String)) :
    ∀ g g1 : Globals, parse_options atoi opts g = some g1 →
      g1.rate = match (opts.filter (fun o => o.1 = 'r')).getLast? with
        | some o => atoi o.2
        | none => g.rate := by
  induction opts with
  | nil => intro g g1 h; simp [parse_options] at h; simp [h]
  | cons o rest ih =>
    intro g g1 h
    obtain ⟨ch, optarg⟩ := o
    unfold parse_options at h
    by_cases hd : ch = 'd'
    · subst hd
      rw [if_pos rfl] at h
      have := ih _ _ h
      rw [this, List.filter_cons_of_neg (by simp)]
    · rw [if_neg hd] at h
      by_cases hr : ch = 'r'
      · subst hr
        rw [if_pos rfl] at h
        have := ih _ _ h
        rw [this, List.filter_cons_of_pos (by simp), List.getLast?_cons]
        cases (List.filter (fun o => decide (o.1 = 'r')) rest).getLast? <;> rfl
      · rw [if_neg hr] at h
        exact absurd h (by simp)

theorem parse_options_rate_given (atoi : String → Int) (opts : List (Char × String))
    (g : Globals) (h : parse_options atoi opts Globals.init = some g) :
    g.rate = rate_given atoi opts := parse_options_rate atoi opts _ _ h

theorem setinfo_records_read_wav_data (p : List Nat) (m : Int) (ai : audio_info)
    (fp : Option FILE) (r : Int × List Nat × Option FILE × List Event)
    (h : read_wav_data p m ai fp = some r) : setinfo_records r.2.2.2 = [] := by
  unfold read_wav_data at h
  simp only at h
  split at h
  · exact absurd h (by simp)
  · split at h
    · exact absurd h (by simp)
    · split at h
      · exact absurd h (by simp)
      · split at h
        · exact absurd h (by simp)
        · simp only [Option.some.injEq] at h
          subst h
          rfl

theorem setinfo_records_copy_loop (ai : audio_info) (bps : Int) :
    ∀ (fuel : Nat) (p : List Nat) (wav_fp : Option FILE),
      setinfo_records (copy_loop ai bps fuel p wav_fp).2.2.2 = [] := by
  intro fuel
  induction fuel with
  | zero => intro p wav_fp; rfl
  | succ n ih =>
    intro p wav_fp
    rw [copy_loop]
    cases hr : read_wav_data p 8192 ai wav_fp with
    | none => rfl
    | some r =>
      have hev := setinfo_records_read_wav_data p 8192 ai wav_fp r hr
      obtain ⟨nsamples, buf1, fp0, ev⟩ := r
      simp only at hev
      cases fp0 with
      | none => simp only [setinfo_records_append, hev]; rfl
      | some f =>
        simp only
        by_cases heof : f.eof = true
        · rw [if_pos heof]
          simp only [setinfo_records_append, hev]; rfl
        · rw [if_neg heof]
          simp only [setinfo_records_append, hev, ih]; rfl

theorem setinfo_records_wav_open (env : Env) (f : String) (g : Globals) :
    setinfo_records (wav_open env f g).2.2 = [] := by
  unfold wav_open
  split
  · rfl
  · split <;> rfl

theorem setinfo_records_wav_close (g : Globals) (c : Globals × List Event)
    (h : wav_close g = some c) : setinfo_records c.2 = [] := by
  unfold wav_close at h
  split at h
  · exact absurd h (by simp)
  · split at h
    · simp only [Option.some.injEq] at h
      subst h
      rfl
    · exact absurd h (by simp)

/-- Every record that a run of `main` passes to the set-parameters request is
the record that the query returned, configured by lines 98-103 with the rate
left by the option loop. -/
theorem main_setinfo_records (fuel : Nat) (env : Env) (passed : audio_info)
    (hrec : passed ∈ setinfo_records (main fuel env).2) :
    ∃ g ai0, parse_options env.atoi env.getopt Globals.init = some g ∧
      env.getinfo env.initinfo = some ai0 ∧ passed = configure g.rate ai0 := by
  unfold main at hrec
  cases hp : parse_options env.atoi env.getopt Globals.init with
  | none =>
    rw [hp] at hrec
    simp [setinfo_records] at hrec
  | some g =>
    rw [hp] at hrec
    match hops : env.operands with
    | [] =>
      rw [hops] at hrec
      simp [setinfo_records] at hrec
    | _ :: _ :: _ =>
      rw [hops] at hrec
      simp [setinfo_records] at hrec
    | [f] =>
      rw [hops] at hrec
      simp only at hrec
      cases hdev : env.open_ok with
      | false =>
        rw [hdev] at hrec
        simp [setinfo_records] at hrec
      | true =>
        rw [hdev] at hrec
        simp only [Bool.true_eq_false, if_false] at hrec
        cases hget : env.getinfo env.initinfo with
        | none =>
          rw [hget] at hrec
          simp [setinfo_records] at hrec
        | some ai0 =>
          rw [hget] at hrec
          simp only at hrec
          refine ⟨g, ai0, rfl, rfl, ?_⟩
          have hpre : ∀ ai, setinfo_records ([Event.open_device, Event.ioctl_getinfo]
              ++ debug_dump g.debug ai0 ++ [Event.ioctl_setinfo (configure g.rate ai0)]
              ++ debug_dump g.debug ai ++ [Event.printf_open f] ++ (wav_open env f g).2.2)
              = [configure g.rate ai0] := by
            intro ai
            simp [setinfo_records_append, setinfo_records_debug_dump, setinfo_records,
              setinfo_records_wav_open]
          cases hset : env.setinfo (configure g.rate ai0) with
          | none =>
            rw [hset] at hrec
            simpa [setinfo_records_append, setinfo_records_debug_dump, setinfo_records]
              using hrec
          | some ai =>
            rw [hset] at hrec
            simp only at hrec
            split at hrec
            · rw [hpre ai] at hrec
              simpa using hrec
            · have hevs := setinfo_records_copy_loop ai (bytes_per_sample ai) fuel
                (List.replicate BUFFER_SIZE 0) (wav_open env f g).2.1.wav_fp
              rcases hloop : copy_loop ai (bytes_per_sample ai) fuel
                  (List.replicate BUFFER_SIZE 0) (wav_open env f g).2.1.wav_fp
                with ⟨e, p, fp, evs⟩
              rw [hloop] at hrec hevs
              simp only at hevs
              cases e with
              | fault =>
                simp only at hrec
                rw [setinfo_records_append, hpre ai, hevs] at hrec
                simpa using hrec
              | running =>
                simp only at hrec
                rw [setinfo_records_append, hpre ai, hevs] at hrec
                simpa using hrec
              | at_eof =>
                simp only at hrec
                cases hc : wav_close
                    { (wav_open env f g).2.1 with wav_fp := fp } with
                | none =>
                  rw [hc] at hrec
                  simp only at hrec
                  rw [setinfo_records_append, hpre ai, hevs] at hrec
                  simpa using hrec
                | some c =>
                  rw [hc] at hrec
                  simp only at hrec
                  rw [setinfo_records_append, setinfo_records_append,
                    setinfo_records_append, hpre ai, hevs,
                    setinfo_records_wav_close _ c hc] at hrec
                  simpa [setinfo_records] using hrec

/-- A run of `main` that gets as far as the device query passes a record to
the set-parameters request, whatever happens afterwards. -/
theorem main_setinfo_records_ne_nil (fuel : Nat) (env : Env) (g : Globals) (f : String)
    (q : audio_info) (hopt : parse_options env.atoi env.getopt Globals.init = some g)
    (hops : env.operands = [f]) (hdev : env.open_ok = true)
    (hget : env.getinfo env.initinfo = some q) :
    configure g.rate q ∈ setinfo_records (main fuel env).2 := by
  unfold main
  simp only [hopt, hops, hdev, hget, Bool.true_eq_false, if_false]
  cases hset : env.setinfo (configure g.rate q) with
  | none => simp [setinfo_records_append, setinfo_records]
  | some ai =>
    simp only
    split
    · simp [setinfo_records_append, setinfo_records]
    · rcases hloop : copy_loop ai (bytes_per_sample ai) fuel
          (List.replicate BUFFER_SIZE 0) (wav_open env f g).2.1.wav_fp
        with ⟨e, p, fp, evs⟩
      cases e with
      | fault => simp [setinfo_records_append, setinfo_records]
      | running => simp [setinfo_records_append, setinfo_records]
      | at_eof =>
        simp only
        cases wav_close { (wav_open env f g).2.1 with wav_fp := fp } with
        | none => simp [setinfo_records_append, setinfo_records]
        | some c => simp [setinfo_records_append, setinfo_records]

/-- C8: a run of `main` that gets as far as the device query passes a record to
the set-parameters request, and every record that `main` passes to that
request has the rate given with `-r` (11025 when there is none), signed linear
PCM, 2 channels, 16 bits, `bps` 2 and `msb` 1, and every other member as the
query returned it. -/
theorem main_configures_device (fuel : Nat) (env : Env) :
    (∀ g f q, parse_options env.atoi env.getopt Globals.init = some g →
      env.operands = [f] → env.open_ok = true → env.getinfo env.initinfo = some q →
      setinfo_records (main fuel env).2 ≠ []) ∧
    ∀ passed ∈ setinfo_records (main fuel env).2,
      ∃ q, env.getinfo env.initinfo = some q ∧
        passed.play.sample_rate = rate_given env.atoi env.getopt ∧
        passed.play.encoding = AUDIO_ENCODING_SLINEAR ∧
        passed.play.channels = 2 ∧ passed.play.precision = 16 ∧
        passed.play.bps = 2 ∧ passed.play.msb = 1 ∧
        passed.play.buffer_size = q.play.buffer_size ∧
        passed.play.block_size = q.play.block_size ∧
        passed.play.others = q.play.others ∧ passed.blocksize = q.blocksize ∧
        passed.hiwat = q.hiwat ∧ passed.lowat = q.lowat ∧ passed.others = q.others := by
  constructor
  · intro g f q hopt hops hdev hget hnil
    have := main_setinfo_records_ne_nil fuel env g f q hopt hops hdev hget
    rw [hnil] at this
    exact absurd this (List.not_mem_nil _)
  · intro passed hrec
    obtain ⟨g, ai0, hp, hget, rfl⟩ := main_setinfo_records fuel env passed hrec
    refine ⟨ai0, hget, ?_, rfl, rfl, rfl, rfl, rfl, rfl, rfl, rfl, rfl, rfl, rfl, rfl⟩
    exact parse_options_rate_given env.atoi env.getopt g hp

theorem main_configures_device_witness :
    setinfo_records (main 1 (demo_env [('r', "22050")] ["a.wav"] none)).2 ≠ [] ∧
    ∃ q, (demo_env [('r', "22050")] ["a.wav"] none).getinfo
        (demo_env [('r', "22050")] ["a.wav"] none).initinfo = some q ∧
      (configure 22050 demo_info).play.sample_rate
        = rate_given (demo_env [('r', "22050")] ["a.wav"] none).atoi
            (demo_env [('r', "22050")] ["a.wav"] none).getopt ∧
      (configure 22050 demo_info).play.encoding = AUDIO_ENCODING_SLINEAR ∧
      (configure 22050 demo_info).play.channels = 2 ∧
      (configure 22050 demo_info).play.precision = 16 ∧
      (configure 22050 demo_info).play.bps = 2 ∧ (configure 22050 demo_info).play.msb = 1 ∧
      (configure 22050 demo_info).play.buffer_size = q.play.buffer_size ∧
      (configure 22050 demo_info).play.block_size = q.play.block_size ∧
      (configure 22050 demo_info).play.others = q.play.others ∧
      (configure 22050 demo_info).blocksize = q.blocksize ∧
      (configure 22050 demo_info).hiwat = q.hiwat ∧
      (configure 22050 demo_info).lowat = q.lowat ∧
      (configure 22050 demo_info).others = q.others :=
  ⟨(main_configures_device 1 (demo_env [('r', "22050")] ["a.wav"] none)).1
      ⟨0, demo_atoi "22050", none⟩ "a.wav" demo_info (by decide) rfl rfl rfl,
    (main_configures_device 1 (demo_env [('r', "22050")] ["a.wav"] none)).2
      (configure 22050 demo_info) (by decide)⟩

/-- C10, refuted as stated: in the record that `main` passes to the
set-parameters request, `play.bps` is not `channels * precision / 8`. -/
theorem play_bps_is_not_frame_size :
    ¬ ∀ (fuel : Nat) (env : Env), ∀ passed ∈ setinfo_records (main fuel env).2,
        passed.play.bps = bytes_per_sample passed := by
  intro h
  have h2 := h 0 (demo_env [] ["a.wav"] none) (configure 11025 demo_info) (by decide)
  exact absurd h2 (by decide)

/-- C10, amended: in the record that `main` passes to the set-parameters
request, `play.bps` is 2, the bytes of one sample of one channel
(`precision / 8`); the divisor `channels * precision / 8` of the same record,
which `read_wav_data` and the copy loop use, is 4, that is `channels * play.bps`. -/
theorem play_bps_is_channel_sample_size (fuel : Nat) (env : Env) (passed : audio_info)
    (hrec : passed ∈ setinfo_records (main fuel env).2) :
    passed.play.bps = 2 ∧ passed.play.bps = passed.play.precision / 8 ∧
      bytes_per_sample passed = 4 ∧
      bytes_per_sample passed = passed.play.channels * passed.play.bps := by
  obtain ⟨g, ai0, _, _, rfl⟩ := main_setinfo_records fuel env passed hrec
  exact ⟨rfl, rfl, rfl, rfl⟩

theorem play_bps_is_channel_sample_size_witness :
    (configure 11025 demo_info).play.bps = 2 ∧
      (configure 11025 demo_info).play.bps = (configure 11025 demo_info).play.precision / 8 ∧
      bytes_per_sample (configure 11025 demo_info) = 4 ∧
      bytes_per_sample (configure 11025 demo_info)
        = (configure 11025 demo_info).play.channels * (configure 11025 demo_info).play.bps :=
  play_bps_is_channel_sample_size 0 (demo_env [] ["a.wav"] none) (configure 11025 demo_info)
    (by decide)

/-! ## The file handle -/

theorem wav_fp_inv_wav_open_ok (env : Env) (f : String) (g : Globals)
    (h : (wav_open env f g).1 = 0) : wav_fp_inv (wav_open env f g).2.1.wav_fp = true := by
  unfold wav_open at h ⊢
  split at h
  · exact absurd h (by simp)
  · split at h
    · rename_i hs
      simp [hs, wav_fp_inv]
    · exact absurd h (by simp)

theorem wav_fp_inv_wav_open_no_file (env : Env) (f : String) (g : Globals)
    (h : env.fs f = none) : wav_fp_inv (wav_open env f g).2.1.wav_fp = true := by
  simp [wav_open, h, wav_fp_inv]

theorem wav_fp_inv_wav_close (g : Globals) (c : Globals × List Event)
    (h : wav_close g = some c) : wav_fp_inv c.1.wav_fp = true := by
  unfold wav_close at h
  split at h
  · exact absurd h (by simp)
  · split at h
    · simp only [Option.some.injEq] at h
      subst h
      rfl
    · exact absurd h (by simp)

theorem wav_fp_inv_read_wav_data (p : List Nat) (m : Int) (ai : audio_info)
    (fp : Option FILE) (r : Int × List Nat × Option FILE × List Event)
    (hinv : wav_fp_inv fp = true) (h : read_wav_data p m ai fp = some r) :
    wav_fp_inv r.2.2.1 = true := by
  unfold read_wav_data at h
  simp only at h
  split at h
  · exact absurd h (by simp)
  · split at h
    · exact absurd h (by simp)
    · split at h
      · exact absurd h (by simp)
      · split at h
        · exact absurd h (by simp)
        · rename_i f hopen _
          simp only [Option.some.injEq] at h
          subst h
          simp only [wav_fp_inv, Bool.and_eq_true, decide_eq_true_eq] at hinv ⊢
          unfold fread
          split
          · exact hinv
          · exact ⟨hinv.1, by simp only; omega⟩

/-- C9, at the failing input: when `fopen` succeeds and the seek to offset 44
fails, `wav_open` returns 1 and leaves `wav_fp` pointing to the stream that it
has closed: not null, not open, and at offset 0. -/
theorem wav_open_seek_failure (env : Env) (f : String) (g : Globals) (node : FileNode)
    (hfs : env.fs f = some node) (hseek : node.seekable = false) :
    (wav_open env f g).1 = 1 ∧
      (wav_open env f g).2.1.wav_fp = some ⟨node.data, 0, false, false⟩ ∧
      wav_fp_inv (wav_open env f g).2.1.wav_fp = false := by
  simp [wav_open, hfs, hseek, fclose, wav_fp_inv]

theorem wav_open_seek_failure_witness :
    (wav_open (demo_env [] ["fifo"] (some ⟨demo_data, false⟩)) "fifo" Globals.init).1 = 1 ∧
      (wav_open (demo_env [] ["fifo"] (some ⟨demo_data, false⟩)) "fifo" Globals.init).2.1.wav_fp
        = some ⟨(⟨demo_data, false⟩ : FileNode).data, 0, false, false⟩ ∧
      wav_fp_inv
        (wav_open (demo_env [] ["fifo"] (some ⟨demo_data, false⟩)) "fifo"
          Globals.init).2.1.wav_fp = false :=
  wav_open_seek_failure (demo_env [] ["fifo"] (some ⟨demo_data, false⟩)) "fifo" Globals.init
    ⟨demo_data, false⟩ rfl rfl

end Necsbplay
